import Mathlib

/-!
Shallow embedding of the tronbot client (src/main.rs) and verification of
its specification claims.

The embedding models the pure world-model and move-selector core of the
program: the `Game` state (identity, player registry, grid, own position),
the mutators `reset`, `add_player`, `remove_player`, `occupy`, the `pos`
and `die` event handlers, and the `beam` heuristic with the tick handler's
direction-selection loop.  Rust operations that can panic (vector indexing
out of bounds, usize subtraction underflow followed by a modulo by zero)
are modelled as `Option`-returning functions where `none` marks the panic.
-/

namespace Tronbot

/-- `type PlayerID = usize` (main.rs:14).  `usize` is modelled as `Nat`; the
alias is expanded to `Nat` in the definitions below because it is purely a
name for the same type. -/
abbrev PlayerID := Nat

/-- `type Coord = usize` (main.rs:15); expanded to `Nat` below likewise. -/
abbrev Coord := Nat

/-- `enum Direction` (main.rs:17-23). -/
inductive Direction where
  | WPos
  | WNeg
  | HPos
  | HNeg
deriving DecidableEq

/-- `struct Cell` (main.rs:25-28): one grid square, optionally claimed. -/
structure Cell where
  claimed_by : Option Nat
deriving DecidableEq

/-- `Cell::new` (main.rs:31-33). -/
def Cell.new : Cell := ⟨none⟩

/-- `Cell::claimed` (main.rs:35-37). -/
def Cell.claimed (c : Cell) : Bool := c.claimed_by.isSome

/-- The pure state of `struct Game` (main.rs:40-51).  The networking fields
(`reader`, `writer`, `read_buf`) are the out-of-scope transport and are not
modelled.  `world` is indexed `[width_offset][height_offset]`. -/
structure Game where
  username : String
  me : Option Nat
  others : List (Option String)
  world : List (List Cell)
  pos : Nat × Nat
deriving DecidableEq

/-- `Game::reset` (main.rs:83-88): sets `me`, clears `others`, reallocates
the grid; `username` and `pos` are not touched. -/
def Game.reset (g : Game) (width height me : Nat) : Game :=
  { g with
    me := some me
    others := []
    world := List.replicate width (List.replicate height Cell.new) }

/-- The while loop of `add_player` (main.rs:120-124): push `None` onto the
registry until its length reaches `id + 1`, so that index `id` is
addressable.  Pushing `None` `id + 1 - len` times is appending that many
`None`s. -/
def growTo (others : List (Option String)) (id : Nat) : List (Option String) :=
  others ++ List.replicate (id + 1 - others.length) none

/-- `Game::add_player` (main.rs:115-129): a name equal to the configured
username sets `me`; any other name is padded into `others` (growing the
vector with `None` up to index `id`) and stored only if the slot is empty. -/
def Game.add_player (g : Game) (id : Nat) (name : String) : Game :=
  if name = g.username then
    { g with me := some id }
  else if (growTo g.others id)[id]? = some none then
    { g with others := (growTo g.others id).set id (some name) }
  else
    { g with others := growTo g.others id }

/-- `Game::remove_player` (main.rs:131-145): `self.others[id] = None` panics
when `id` is outside the vector (modelled as `none`); otherwise the slot is
cleared and every cell claimed by `id` is released by a full grid scan. -/
def Game.remove_player (g : Game) (id : Nat) : Option Game :=
  if id < g.others.length then
    some { g with
      others := g.others.set id none
      world := g.world.map fun col =>
        col.map fun c => if c.claimed_by = some id then ⟨none⟩ else c }
  else
    none

/-- `Game::get_player_name` (main.rs:147-154). -/
def Game.get_player_name (g : Game) (player_id : Nat) : Option String :=
  match g.others[player_id]? with
  | none => none
  | some none => none
  | some (some s) => some s

/-- `Game::occupy` (main.rs:156-159): `self.world[w][h] = Cell { claimed_by:
Some(player_id) }`; indexing outside the grid panics (modelled as `none`). -/
def Game.occupy (g : Game) (player_id w h : Nat) : Option Game :=
  match g.world[w]? with
  | none => none
  | some col =>
    if h < col.length then
      some { g with world := g.world.set w (col.set h ⟨some player_id⟩) }
    else
      none

/-- The cell stored at grid position `(w, h)`, when it exists. -/
def cellAt (g : Game) (w h : Nat) : Option Cell :=
  match g.world[w]? with
  | none => none
  | some col => col[h]?

/-- The `pos` message handler (main.rs:331-346): claim the cell, then update
the own position when the player is `me`. -/
def handle_pos (g : Game) (player_id x y : Nat) : Option Game :=
  (g.occupy player_id x y).map fun g' =>
    if g'.me = some player_id then { g' with pos := (x, y) } else g'

/-- The `die` message handler (main.rs:359-367): the registry lookup for the
log line is effect-free; the state change is `remove_player`. -/
def handle_die (g : Game) (id : Nat) : Option Game :=
  g.remove_player id

/-- The grid index touched by `beam` at a given step offset (main.rs:201-204):
`(origin + offset) mod expanse`, with `+ expanse` added before the modulo in
the decreasing directions to avoid usize underflow.  `expanse` is
`world.len()` for all four directions. -/
def rayIdx (g : Game) (d : Direction) (offset : Nat) : Nat × Nat :=
  match d with
  | .WPos => ((g.pos.1 + offset) % g.world.length, g.pos.2)
  | .WNeg => ((g.pos.1 + g.world.length - offset) % g.world.length, g.pos.2)
  | .HPos => (g.pos.1, (g.pos.2 + offset) % g.world.length)
  | .HNeg => (g.pos.1, (g.pos.2 + g.world.length - offset) % g.world.length)

/-- The cell scanned by `beam` at a given step offset, when it exists. -/
def rayCell (g : Game) (d : Direction) (offset : Nat) : Option Cell :=
  cellAt g (rayIdx g d offset).1 (rayIdx g d offset).2

/-- Whether the scanned cell at a step offset is claimed; a missing cell
(an index the Rust code would panic on) counts as `true`. -/
def rayClaimed (g : Game) (d : Direction) (offset : Nat) : Bool :=
  ((rayCell g d offset).map Cell.claimed).getD true

/-- `beam` (main.rs:194-210): scan offsets `0 .. expanse-1` along the ray,
incrementing the count for every unclaimed cell; no early exit at a claimed
cell.  On a zero-extent grid the Rust `expanse - 1` underflows (debug) or
`% expanse` divides by zero (release) — both panic, modelled as `none`; a
panic from out-of-range indexing inside the loop is also `none`. -/
def beam (g : Game) (d : Direction) : Option Nat :=
  if g.world.length = 0 then
    none
  else
    (List.range (g.world.length - 1)).foldlM
      (fun beam_len offset =>
        (rayCell g d offset).map fun c =>
          if c.claimed then beam_len else beam_len + 1)
      0

/-- The direction-selection loop of the `tick` handler (main.rs:300-308):
fold over the four directions in enumeration order, starting from
`(WPos, 0)`, replacing the best candidate only on a strictly greater beam
length. -/
def select_direction (g : Game) : Option Direction :=
  (([Direction.WPos, Direction.WNeg, Direction.HPos, Direction.HNeg].foldlM
      (fun (best : Direction × Nat) dir =>
        (beam g dir).map fun b =>
          if b > best.2 then (dir, b) else best)
      (Direction.WPos, 0))).map Prod.fst

/-- The move-command name of a direction (main.rs:312-317). -/
def direction_name (d : Direction) : String :=
  match d with
  | .WPos => "right"
  | .WNeg => "left"
  | .HPos => "up"
  | .HNeg => "down"

/-- Direction selection as the specification words it (a second definition,
written from the spec, to be compared with `select_direction`): given the
four beam lengths in enumeration order WPos, WNeg, HPos, HNeg, return the
first direction in that order whose beam length equals the maximum — the
strictly greatest count wins and ties go to the earlier direction. -/
def specSelect (b1 b2 b3 b4 : Nat) : Direction :=
  if b1 = max (max b1 b2) (max b3 b4) then .WPos
  else if b2 = max (max b1 b2) (max b3 b4) then .WNeg
  else if b3 = max (max b1 b2) (max b3 b4) then .HPos
  else .HNeg

/-- A 3×3 entirely open grid with the bot at (1,2). -/
def gOpen3 : Game :=
  { username := "MASTER CONTROL PROGRAM"
    me := some 0
    others := []
    world := [[⟨none⟩, ⟨none⟩, ⟨none⟩], [⟨none⟩, ⟨none⟩, ⟨none⟩], [⟨none⟩, ⟨none⟩, ⟨none⟩]]
    pos := (1, 2) }

/-- A 4×4 grid, bot at (0,0), with exactly the cell (1,0) — ray offset 1 in
direction WPos — claimed (by player 5). -/
def gBlocked4 : Game :=
  { username := "MASTER CONTROL PROGRAM"
    me := some 0
    others := []
    world := [[⟨none⟩, ⟨none⟩, ⟨none⟩, ⟨none⟩], [⟨some 5⟩, ⟨none⟩, ⟨none⟩, ⟨none⟩],
              [⟨none⟩, ⟨none⟩, ⟨none⟩, ⟨none⟩], [⟨none⟩, ⟨none⟩, ⟨none⟩, ⟨none⟩]]
    pos := (0, 0) }

/-- A 4×4 grid, bot at (0,0), where the cells (1,0) and (0,3) are claimed:
the beams are WPos 2, WNeg 3, HPos 3, HNeg 2, so WNeg and HPos tie for the
maximum. -/
def gTie : Game :=
  { username := "MASTER CONTROL PROGRAM"
    me := some 0
    others := []
    world := [[⟨none⟩, ⟨none⟩, ⟨none⟩, ⟨some 5⟩], [⟨some 5⟩, ⟨none⟩, ⟨none⟩, ⟨none⟩],
              [⟨none⟩, ⟨none⟩, ⟨none⟩, ⟨none⟩], [⟨none⟩, ⟨none⟩, ⟨none⟩, ⟨none⟩]]
    pos := (0, 0) }

/-- The zero-extent (empty) grid. -/
def gEmpty : Game :=
  { username := "MASTER CONTROL PROGRAM"
    me := none
    others := []
    world := []
    pos := (0, 0) }

/-- A degenerate 1×1 grid. -/
def gOne : Game :=
  { username := "MASTER CONTROL PROGRAM"
    me := some 0
    others := []
    world := [[⟨none⟩]]
    pos := (0, 0) }

/-- A mid-epoch state with leftover data of its epoch: a registered player,
a claimed cell and the bot parked at (3,4). -/
def gPrev : Game :=
  { username := "u"
    me := some 7
    others := [some "bob"]
    world := [[⟨some 7⟩]]
    pos := (3, 4) }

/-- A state whose registry already stores a name for ID 0. -/
def gReg : Game :=
  { username := "MASTER CONTROL PROGRAM"
    me := some 9
    others := [some "alice"]
    world := [[⟨none⟩]]
    pos := (0, 0) }

/-- A burst of later `player` events: a conflicting name for ID 0, a fresh
registration that grows the registry, and a username event for ID 0. -/
def regCalls : List (Nat × String) :=
  [(0, "eve"), (3, "carol"), (0, "MASTER CONTROL PROGRAM")]

/-- A 2×2 world in which players 0 and 1 both hold cells. -/
def gDie : Game :=
  { username := "u"
    me := some 0
    others := [some "a", some "b"]
    world := [[⟨some 1⟩, ⟨some 0⟩], [⟨none⟩, ⟨some 1⟩]]
    pos := (0, 1) }

/-- `gDie` after `remove_player 1`: slot 1 cleared, player 1's cells
released, everything else untouched. -/
def gDieAfter : Game :=
  { username := "u"
    me := some 0
    others := [some "a", none]
    world := [[⟨none⟩, ⟨some 0⟩], [⟨none⟩, ⟨none⟩]]
    pos := (0, 1) }

/-- A state where ID 1 is addressable in the registry but holds no cells. -/
def gNoClaim : Game :=
  { username := "u"
    me := some 0
    others := [some "a", some "b", none]
    world := [[⟨some 0⟩, ⟨none⟩], [⟨none⟩, ⟨none⟩]]
    pos := (0, 0) }

/-- A 2×2 world with a foreign claim at (0,1), bot identity 3 at (1,1). -/
def gPos : Game :=
  { username := "u"
    me := some 3
    others := []
    world := [[⟨none⟩, ⟨some 5⟩], [⟨none⟩, ⟨none⟩]]
    pos := (1, 1) }

/-- `gPos` after `pos|3|0|1`: the cell (0,1) is overwritten with claimant 3
and the own position moves to (0,1). -/
def gPosAfter : Game :=
  { username := "u"
    me := some 3
    others := []
    world := [[⟨none⟩, ⟨some 3⟩], [⟨none⟩, ⟨none⟩]]
    pos := (0, 1) }

/-- A mid-epoch state in which the own ID is already known to be 1 and the
configured username is the default `MASTER CONTROL PROGRAM`. -/
def gMid : Game :=
  { username := "MASTER CONTROL PROGRAM"
    me := some 1
    others := []
    world := [[⟨none⟩]]
    pos := (0, 0) }

/-- The grid is square with extent `E` — the assumption `beam` documents
(`we assume that the world is the same size in all dimensions`). -/
def Square (g : Game) (E : Nat) : Prop :=
  g.world.length = E ∧ ∀ col ∈ g.world, col.length = E

/-- Every cell of the grid is unclaimed. -/
def UnclaimedWorld (g : Game) : Prop :=
  ∀ col ∈ g.world, ∀ c ∈ col, c.claimed_by = none

instance (g : Game) (E : Nat) : Decidable (Square g E) := by
  unfold Square; infer_instance

instance (g : Game) : Decidable (UnclaimedWorld g) := by
  unfold UnclaimedWorld; infer_instance

/-- A cell returned by `cellAt` sits in some column of the grid. -/
theorem cellAt_mem {g : Game} {w h : Nat} {c : Cell}
    (hc : cellAt g w h = some c) : ∃ col ∈ g.world, c ∈ col := by
  unfold cellAt at hc
  split at hc
  · exact absurd hc (by simp)
  · next col hcol => exact ⟨col, List.getElem?_mem hcol, List.getElem?_mem hc⟩

/-- On a square grid, in-bounds coordinates always hit a cell. -/
theorem cellAt_exists {g : Game} {E : Nat} (hsq : Square g E)
    {w h : Nat} (hw : w < E) (hh : h < E) : ∃ c, cellAt g w h = some c := by
  obtain ⟨hlen, hcols⟩ := hsq
  have hw' : w < g.world.length := by omega
  obtain ⟨col, hcol⟩ : ∃ col, g.world[w]? = some col := by
    rw [List.getElem?_eq_getElem hw']
    exact ⟨_, rfl⟩
  have hclen : col.length = E := hcols col (List.getElem?_mem hcol)
  have hh' : h < col.length := by omega
  obtain ⟨c, hc⟩ : ∃ c, col[h]? = some c := by
    rw [List.getElem?_eq_getElem hh']
    exact ⟨_, rfl⟩
  refine ⟨c, ?_⟩
  unfold cellAt
  rw [hcol]
  exact hc

/-- Both components of a ray index stay inside a square grid of extent `E`. -/
theorem rayIdx_lt {g : Game} {E : Nat} (hsq : Square g E)
    (hw : g.pos.1 < E) (hh : g.pos.2 < E) (d : Direction) (o : Nat) :
    (rayIdx g d o).1 < E ∧ (rayIdx g d o).2 < E := by
  have hE : 0 < E := by omega
  have hlen : g.world.length = E := hsq.1
  cases d <;> simp only [rayIdx, hlen] <;>
    exact ⟨by first | exact Nat.mod_lt _ hE | exact hw,
           by first | exact Nat.mod_lt _ hE | exact hh⟩

/-- On a square grid with an in-bounds origin, every ray step hits a cell. -/
theorem rayCell_exists {g : Game} {E : Nat} (hsq : Square g E)
    (hw : g.pos.1 < E) (hh : g.pos.2 < E) (d : Direction) (o : Nat) :
    ∃ c, rayCell g d o = some c := by
  obtain ⟨h1, h2⟩ := rayIdx_lt hsq hw hh d o
  exact cellAt_exists hsq h1 h2

/-- The loop of `beam`, folded over any offset list whose cells all exist,
counts the offsets that land on unclaimed cells. -/
theorem foldlM_beam_count (f : Nat → Option Cell) (l : List Nat) :
    ∀ a : Nat, (∀ o ∈ l, (f o).isSome) →
      l.foldlM
        (fun beam_len o => (f o).map fun c =>
          if c.claimed then beam_len else beam_len + 1) a
      = some (a + l.countP fun o => !((f o).map Cell.claimed).getD true) := by
  induction l with
  | nil => intro a _; simp
  | cons x xs ih =>
    intro a H
    obtain ⟨c, hc⟩ := Option.isSome_iff_exists.mp (H x (by simp))
    have H' : ∀ o ∈ xs, (f o).isSome := fun o ho => H o (by simp [ho])
    rw [List.foldlM_cons, hc]
    simp only [Option.map_some', Option.bind_eq_bind, Option.some_bind]
    rw [ih _ H', List.countP_cons]
    simp only [hc, Option.map_some', Option.getD_some]
    cases hcl : c.claimed
    · simp
      try omega
    · simp
      try omega

/-- `beam` on a square grid with an in-bounds origin returns the number of
ray offsets in `0 .. extent - 2` that land on unclaimed cells — with no
early exit at the first claimed cell. -/
theorem beam_eq_count {g : Game} {E : Nat} (hsq : Square g E)
    (hw : g.pos.1 < E) (hh : g.pos.2 < E) (d : Direction) :
    beam g d = some ((List.range (E - 1)).countP fun o => !rayClaimed g d o) := by
  have hlen : g.world.length = E := hsq.1
  have hE : E ≠ 0 := by omega
  unfold beam
  rw [hlen, if_neg hE]
  rw [foldlM_beam_count (rayCell g d) (List.range (E - 1)) 0
    (fun o _ => Option.isSome_iff_exists.mpr (rayCell_exists hsq hw hh d o))]
  simp [rayClaimed]

/-- Counting the offsets other than 1 in `0 .. n-1`: there are `n - 1` of
them as soon as `2 ≤ n`. -/
theorem countP_ne_one_range (n : Nat) (hn : 2 ≤ n) :
    (List.range n).countP (fun o => o != 1) = n - 1 := by
  induction n, hn using Nat.le_induction with
  | base => decide
  | succ m hm ih =>
    rw [List.range_succ, List.countP_append, ih, List.countP_singleton]
    have hm1 : (m != 1) = true := by
      simp only [bne_iff_ne, ne_eq]
      omega
    rw [hm1, if_pos rfl]
    omega

/-- C3: on a square, entirely unclaimed grid of extent `E`, `beam` returns
exactly `E - 1` for every one of the four directions from every in-bounds
origin. -/
theorem beam_unclaimed_full (g : Game) (E : Nat) (d : Direction)
    (hsq : Square g E) (hw : g.pos.1 < E) (hh : g.pos.2 < E)
    (hun : UnclaimedWorld g) :
    beam g d = some (E - 1) := by
  rw [beam_eq_count hsq hw hh d]
  have hall : ∀ o ∈ List.range (E - 1), (!rayClaimed g d o) = true := by
    intro o _
    obtain ⟨c, hc⟩ := rayCell_exists hsq hw hh d o
    have hc' : cellAt g (rayIdx g d o).1 (rayIdx g d o).2 = some c := hc
    obtain ⟨col, hcol, hcm⟩ := cellAt_mem hc'
    have hnone : c.claimed_by = none := hun col hcol c hcm
    simp [rayClaimed, hc, Cell.claimed, hnone]
  rw [List.countP_eq_length.mpr hall, List.length_range]

/-- Witness for C3: the 3×3 open grid, origin (1,2), direction HNeg. -/
theorem beam_unclaimed_full_witness :
    Square gOpen3 3 ∧ beam gOpen3 Direction.HNeg = some 2 :=
  ⟨by decide, beam_unclaimed_full gOpen3 3 Direction.HNeg (by decide) (by decide)
    (by decide) (by decide)⟩

/-- Counting the offsets from 2 on in `0 .. n-1`: there are `n - 2` of them
as soon as `2 ≤ n`. -/
theorem countP_two_le_range (n : Nat) (hn : 2 ≤ n) :
    (List.range n).countP (fun o => decide (2 ≤ o)) = n - 2 := by
  induction n, hn using Nat.le_induction with
  | base => decide
  | succ m hm ih =>
    rw [List.range_succ, List.countP_append, ih, List.countP_singleton]
    have hm2 : (decide (2 ≤ m)) = true := by
      simp only [decide_eq_true_eq]
      exact hm
    rw [hm2, if_pos rfl]
    omega

/-- C1: `beam` does not stop at the first claimed cell: when the cell at ray
offset 1 is claimed and every scanned offset from 2 up to `E - 2` lands on
an unclaimed cell, it still counts every unclaimed step of the full ray —
all `E - 2` of them when the origin cell is unclaimed too, and the `E - 3`
beyond the obstacle otherwise — instead of terminating at the obstacle. -/
theorem beam_no_early_stop (g : Game) (E : Nat) (d : Direction)
    (hsq : Square g E) (hw : g.pos.1 < E) (hh : g.pos.2 < E) (hE : 3 ≤ E)
    (h1 : rayClaimed g d 1 = true)
    (hrest : ∀ o, 2 ≤ o → o < E - 1 → rayClaimed g d o = false) :
    beam g d = some (if rayClaimed g d 0 then E - 3 else E - 2) := by
  rw [beam_eq_count hsq hw hh d]
  cases h0 : rayClaimed g d 0
  · have hcong : (List.range (E - 1)).countP (fun o => !rayClaimed g d o)
        = (List.range (E - 1)).countP (fun o => o != 1) := by
      apply List.countP_congr
      intro o ho
      rw [List.mem_range] at ho
      match o with
      | 0 => simp [h0]
      | 1 => simp [h1]
      | (o + 2) =>
        have hro : rayClaimed g d (o + 2) = false := hrest (o + 2) (by omega) (by omega)
        simp [hro]
    rw [hcong, countP_ne_one_range (E - 1) (by omega)]
    simp
    omega
  · have hcong : (List.range (E - 1)).countP (fun o => !rayClaimed g d o)
        = (List.range (E - 1)).countP (fun o => decide (2 ≤ o)) := by
      apply List.countP_congr
      intro o ho
      rw [List.mem_range] at ho
      match o with
      | 0 => simp [h0]
      | 1 => simp [h1]
      | (o + 2) =>
        have hro : rayClaimed g d (o + 2) = false := hrest (o + 2) (by omega) (by omega)
        simp [hro]
    rw [hcong, countP_two_le_range (E - 1) (by omega)]
    simp
    omega

/-- Witness for C1: the 4×4 grid with only the WPos-offset-1 cell claimed;
the beam is 2, not the 1 a stop-at-first-obstacle scan would give. -/
theorem beam_no_early_stop_witness :
    rayClaimed gBlocked4 Direction.WPos 1 = true ∧
      beam gBlocked4 Direction.WPos = some 2 :=
  ⟨by decide, beam_no_early_stop gBlocked4 4 Direction.WPos (by decide) (by decide)
    (by decide) (by decide) (by decide)
    (fun o h2 h3 => by
      have ho : o = 2 := by omega
      subst ho
      decide)⟩

/-- C2: the tick handler's loop evaluates the beams in the fixed order WPos,
WNeg, HPos, HNeg and returns exactly the first direction in that order whose
beam length attains the maximum — a candidate is replaced only on a strictly
greater count, so ties go to the earlier direction. -/
theorem select_direction_first_max (g : Game) (b1 b2 b3 b4 : Nat)
    (h1 : beam g Direction.WPos = some b1) (h2 : beam g Direction.WNeg = some b2)
    (h3 : beam g Direction.HPos = some b3) (h4 : beam g Direction.HNeg = some b4) :
    select_direction g = some (specSelect b1 b2 b3 b4) := by
  unfold select_direction specSelect
  simp only [List.foldlM_cons, List.foldlM_nil, h1, h2, h3, h4,
    Option.map_some', Option.bind_eq_bind, Option.some_bind, Option.pure_def]
  have ha1 : (if b1 > (Direction.WPos, 0).2 then (Direction.WPos, b1)
      else (Direction.WPos, 0)) = (Direction.WPos, b1) := by
    split
    · rfl
    · next hc =>
      have hb1 : b1 = 0 := by omega
      rw [hb1]
  rw [ha1]
  split_ifs <;> dsimp only at * <;> first | rfl | (exfalso; omega)

/-- Witness for C2 at `gTie`, where WNeg and HPos tie for the maximal beam
length 3: the loop answers WNeg, the first of the tied directions, which is
what `specSelect 2 3 3 2` denotes. -/
theorem select_direction_first_max_witness :
    beam gTie Direction.WNeg = some 3 ∧
      select_direction gTie = some Direction.WNeg :=
  ⟨by decide, select_direction_first_max gTie 2 3 3 2 (by decide) (by decide)
    (by decide) (by decide)⟩

/-- C4 fails on the zero-extent grid: there `beam` does not perform zero
iterations and return 0 — the usize subtraction `expanse - 1` underflows
(and the loop's `% expanse` is a division by zero), a panic modelled as
`none`, which also makes the tick handler's selection fail instead of
returning the first enumerated direction. -/
theorem beam_zero_extent_panics :
    beam gEmpty Direction.WPos = none ∧ select_direction gEmpty = none := by
  decide

/-- C4 (amended): on a grid of extent exactly 1, the loop performs zero
iterations, every beam is 0, the selection deterministically returns the
first enumerated direction WPos, and its move command is `right` — no
failure occurs.  On a zero-extent grid, however, `beam` panics (usize
underflow / modulo by zero), so the claim's zero-extent case is dropped. -/
theorem degenerate_extent_one (g : Game) (d : Direction)
    (hlen : g.world.length = 1) :
    beam g d = some 0 ∧ select_direction g = some Direction.WPos ∧
      direction_name Direction.WPos = "right" := by
  have hb : ∀ d' : Direction, beam g d' = some 0 := by
    intro d'
    unfold beam
    rw [hlen]
    simp
  refine ⟨hb d, ?_, rfl⟩
  unfold select_direction
  simp [hb]

/-- Witness for C4 (amended) at the 1×1 grid. -/
theorem degenerate_extent_one_witness :
    gOne.world.length = 1 ∧
      (beam gOne Direction.HNeg = some 0 ∧
        select_direction gOne = some Direction.WPos ∧
        direction_name Direction.WPos = "right") :=
  ⟨by decide, degenerate_extent_one gOne Direction.HNeg (by decide)⟩

/-- C5 fails as stated: the self position set during the previous epoch —
state that is neither the username nor the credentials — survives `reset`
into the new epoch unchanged. -/
theorem reset_keeps_old_pos :
    (Game.reset gPrev 2 2 0).pos = (3, 4) ∧ gPrev.pos = (3, 4) := by
  decide

/-- C5 (amended): `reset`, called in any prior state, yields a clean epoch
for grid, registry and identity — a fresh `width × height` grid of
unclaimed cells, an empty registry, the new own ID — and preserves the
configured username; the self position, however, is carried over from the
prior state instead of being cleared. -/
theorem reset_clean (g : Game) (width height id : Nat) :
    (Game.reset g width height id).world.length = width ∧
    (∀ col ∈ (Game.reset g width height id).world, col.length = height) ∧
    UnclaimedWorld (Game.reset g width height id) ∧
    (Game.reset g width height id).others = [] ∧
    (Game.reset g width height id).me = some id ∧
    (Game.reset g width height id).username = g.username ∧
    (Game.reset g width height id).pos = g.pos := by
  unfold Game.reset UnclaimedWorld
  refine ⟨by simp, ?_, ?_, rfl, rfl, rfl, rfl⟩
  · intro col hcol
    rw [List.eq_of_mem_replicate hcol]
    simp
  · intro col hcol c hc
    rw [List.eq_of_mem_replicate hcol] at hc
    rw [List.eq_of_mem_replicate hc]
    rfl

/-- Witness for C5 (amended) at `gPrev`. -/
theorem reset_clean_witness :
    UnclaimedWorld (Game.reset gPrev 2 3 0) ∧
      (Game.reset gPrev 2 3 0).pos = gPrev.pos :=
  ⟨(reset_clean gPrev 2 3 0).2.2.1, (reset_clean gPrev 2 3 0).2.2.2.2.2.2⟩

/-- A single `add_player` call never disturbs a registry slot that already
stores a name: the username branch leaves the registry alone, growth only
appends, and the insert is guarded by the slot being empty. -/
theorem add_player_preserves_name (g : Game) (id : Nat) (n : String)
    (h : g.others[id]? = some (some n)) (id2 : Nat) (name2 : String) :
    (g.add_player id2 name2).others[id]? = some (some n) := by
  obtain ⟨hid, -⟩ := List.getElem?_eq_some_iff.mp h
  have hgrown : (growTo g.others id2)[id]? = some (some n) := by
    unfold growTo
    rw [List.getElem?_append_left hid]
    exact h
  unfold Game.add_player
  split
  · exact h
  · split
    · next hslot =>
      by_cases hid2 : id2 = id
      · subst hid2
        rw [hgrown] at hslot
        exact absurd hslot (by simp)
      · show ((growTo g.others id2).set id2 (some name2))[id]? = some (some n)
        rw [List.getElem?_set_ne hid2]
        exact hgrown
    · exact hgrown

/-- C6: across every sequence of `player` events, a PlayerID's stored name,
once set, is never overwritten by a later registration for the same ID with
a different name, and growing the registry to reach a new ID never disturbs
existing entries. -/
theorem register_first_write_wins (g : Game) (id : Nat) (n : String)
    (h : g.others[id]? = some (some n)) (calls : List (Nat × String)) :
    ((calls.foldl (fun acc c => acc.add_player c.1 c.2) g).others)[id]?
      = some (some n) := by
  induction calls generalizing g with
  | nil => exact h
  | cons c cs ih =>
    exact ih (g.add_player c.1 c.2) (add_player_preserves_name g id n h c.1 c.2)

/-- Witness for C6: `gReg` stores `alice` at ID 0; a conflicting
registration for ID 0, a registry-growing registration for ID 3 and a
username event for ID 0 all leave the slot intact. -/
theorem register_first_write_wins_witness :
    gReg.others[0]? = some (some "alice") ∧
      ((regCalls.foldl (fun acc c => acc.add_player c.1 c.2) gReg).others)[0]?
        = some (some "alice") :=
  ⟨by decide, register_first_write_wins gReg 0 "alice" (by decide) regCalls⟩

/-- Successful `remove_player` calls are exactly the in-range ones, and the
result is the slot-cleared, claim-released state. -/
theorem remove_player_eq_some {g : Game} {id : Nat} {g' : Game}
    (h : g.remove_player id = some g') :
    id < g.others.length ∧
      g' = { g with
        others := g.others.set id none
        world := g.world.map fun col => col.map fun c =>
          if c.claimed_by = some id then ⟨none⟩ else c } := by
  unfold Game.remove_player at h
  split at h
  · next hlt => exact ⟨hlt, (Option.some.inj h).symm⟩
  · exact absurd h (by simp)

/-- `cellAt` commutes with a cell-wise transformation of the grid. -/
theorem cellAt_world_map (gm g : Game) (f : Cell → Cell)
    (e : gm.world = g.world.map fun col => col.map f) (w h : Nat) :
    cellAt gm w h = (cellAt g w h).map f := by
  unfold cellAt
  rw [e, List.getElem?_map]
  cases hcol : g.world[w]?
  · rfl
  · dsimp only [Option.map_some']
    rw [List.getElem?_map]

/-- C7: a successful `remove_player id` leaves no cell reporting `id` as
claimant, clears the registry slot for `id`, and leaves every cell that was
not claimed by `id` exactly as it was. -/
theorem remove_player_clears (g : Game) (id : Nat) (g' : Game)
    (hrm : g.remove_player id = some g') :
    (∀ w h c, cellAt g' w h = some c → c.claimed_by ≠ some id) ∧
    g'.others[id]? = some none ∧
    (∀ w h c, cellAt g w h = some c → c.claimed_by ≠ some id →
      cellAt g' w h = some c) := by
  obtain ⟨hlt, rfl⟩ := remove_player_eq_some hrm
  have key := fun w h => cellAt_world_map
    { g with
      others := g.others.set id none
      world := g.world.map fun col => col.map fun c =>
        if c.claimed_by = some id then ⟨none⟩ else c }
    g
    (fun c => if c.claimed_by = some id then ⟨none⟩ else c) rfl w h
  refine ⟨?_, ?_, ?_⟩
  · intro w h c hc
    rw [key] at hc
    obtain ⟨c0, hc0, rfl⟩ := Option.map_eq_some'.mp hc
    by_cases hcb : c0.claimed_by = some id
    · simp [hcb]
    · simp [hcb]
  · show (g.others.set id none)[id]? = some none
    exact List.getElem?_set_self hlt
  · intro w h c hc hne
    rw [key, hc]
    simp [hne]

/-- Witness for C7: removing player 1 from `gDie`. -/
theorem remove_player_clears_witness :
    gDie.remove_player 1 = some gDieAfter ∧ gDieAfter.others[1]? = some none :=
  ⟨by decide, (remove_player_clears gDie 1 gDieAfter (by decide)).2.1⟩

/-- C8 fails as stated: in a fresh epoch the registry is empty, so the
`die|2` handler's write `others[2] = None` indexes out of bounds and panics
(modelled as `none`) instead of processing the event without failure. -/
theorem die_unknown_player_panics :
    handle_die (Game.reset gPrev 4 4 0) 2 = none := by decide

/-- C8 (amended): a `die` event for a player whose ID is addressable in the
registry and who holds no claims does not fail and causes no mutation
beyond clearing the (possibly already empty) registry slot; for an ID
beyond the registry's length — in particular `die|2` in a fresh epoch —
the removal indexes out of bounds and panics. -/
theorem die_no_claims_no_mutation (g : Game) (id : Nat)
    (hlen : id < g.others.length)
    (hno : ∀ col ∈ g.world, ∀ c ∈ col, c.claimed_by ≠ some id) :
    handle_die g id = some { g with others := g.others.set id none } := by
  unfold handle_die Game.remove_player
  rw [if_pos hlen]
  have hcols : ∀ col ∈ g.world,
      (col.map fun c => if c.claimed_by = some id then (⟨none⟩ : Cell) else c)
        = col := by
    intro col hcol
    have hcells : ∀ c ∈ col,
        (if c.claimed_by = some id then (⟨none⟩ : Cell) else c) = c :=
      fun c hcm => if_neg (hno col hcol c hcm)
    calc col.map (fun c => if c.claimed_by = some id then (⟨none⟩ : Cell) else c)
        = col.map (fun c => c) := List.map_congr_left hcells
      _ = col := List.map_id' col
  have hworld : (g.world.map fun col => col.map fun c =>
      if c.claimed_by = some id then (⟨none⟩ : Cell) else c) = g.world := by
    calc g.world.map (fun col => col.map fun c =>
          if c.claimed_by = some id then (⟨none⟩ : Cell) else c)
        = g.world.map (fun col => col) := List.map_congr_left hcols
      _ = g.world := List.map_id' _
  rw [hworld]

/-- Witness for C8 (amended): `die|1` on `gNoClaim`, where ID 1 is
addressable and holds no cells. -/
theorem die_no_claims_no_mutation_witness :
    (1 < gNoClaim.others.length) ∧
      handle_die gNoClaim 1
        = some { gNoClaim with others := gNoClaim.others.set 1 none } :=
  ⟨by decide, die_no_claims_no_mutation gNoClaim 1 (by decide) (by decide)⟩

/-- Successful `occupy` calls are exactly the in-bounds ones. -/
theorem occupy_eq_some {g : Game} {pid x y : Nat} {g0 : Game}
    (h : g.occupy pid x y = some g0) :
    ∃ col, g.world[x]? = some col ∧ y < col.length ∧
      g0 = { g with world := g.world.set x (col.set y ⟨some pid⟩) } := by
  unfold Game.occupy at h
  split at h
  · exact absurd h (by simp)
  · next col hcol =>
    split at h
    · next hy => exact ⟨col, hcol, hy, (Option.some.inj h).symm⟩
    · exact absurd h (by simp)

/-- A successful `pos` event yields the claimed-cell update, with the own
position moved exactly when the claimant is `me`. -/
theorem handle_pos_eq_some {g : Game} {pid x y : Nat} {g' : Game}
    (h : handle_pos g pid x y = some g') :
    ∃ col, g.world[x]? = some col ∧ y < col.length ∧
      g' = { g with
        world := g.world.set x (col.set y ⟨some pid⟩)
        pos := if g.me = some pid then (x, y) else g.pos } := by
  unfold handle_pos at h
  obtain ⟨g0, hg0, rfl⟩ := Option.map_eq_some'.mp h
  obtain ⟨col, hcol, hy, rfl⟩ := occupy_eq_some hg0
  refine ⟨col, hcol, hy, ?_⟩
  by_cases hme : g.me = some pid
  · have hcond : ({ g with world := g.world.set x (col.set y ⟨some pid⟩) }
        : Game).me = some pid := hme
    rw [if_pos hcond, if_pos hme]
  · have hcond : ¬({ g with world := g.world.set x (col.set y ⟨some pid⟩) }
        : Game).me = some pid := hme
    rw [if_neg hcond, if_neg hme]

/-- The two frame facts about setting one cell: the written cell reads back,
and every other cell is untouched. -/
theorem cellAt_world_set (gm g : Game) {col : List Cell} {x y : Nat}
    {cnew : Cell} (hcol : g.world[x]? = some col) (hy : y < col.length)
    (e : gm.world = g.world.set x (col.set y cnew)) :
    cellAt gm x y = some cnew ∧
      ∀ w h, ¬(w = x ∧ h = y) → cellAt gm w h = cellAt g w h := by
  obtain ⟨hx, -⟩ := List.getElem?_eq_some_iff.mp hcol
  constructor
  · unfold cellAt
    rw [e, List.getElem?_set_self hx]
    dsimp only
    rw [List.getElem?_set_self hy]
  · intro w h hne
    unfold cellAt
    rw [e]
    by_cases hwx : w = x
    · subst hwx
      rw [List.getElem?_set_self hx, hcol]
      dsimp only
      have hyh : y ≠ h := fun e' => hne ⟨rfl, e'.symm⟩
      rw [List.getElem?_set_ne hyh]
    · rw [List.getElem?_set_ne (fun e' => hwx e'.symm)]

/-- C9: a successful `pos` event marks the cell `(x,y)` as claimed by the
event's player, unconditionally overwriting any previous claimant, leaves
every other cell unchanged (so repeated claims always reflect the most
recent one), and updates the own position to `(x,y)` exactly when the
claimant is the self identity; the registry, identity and username are
untouched. -/
theorem pos_event_spec (g : Game) (player_id x y : Nat) (g' : Game)
    (hp : handle_pos g player_id x y = some g') :
    cellAt g' x y = some ⟨some player_id⟩ ∧
    (∀ w h, ¬(w = x ∧ h = y) → cellAt g' w h = cellAt g w h) ∧
    g'.pos = (if g.me = some player_id then (x, y) else g.pos) ∧
    g'.me = g.me ∧ g'.others = g.others ∧ g'.username = g.username := by
  obtain ⟨col, hcol, hy, rfl⟩ := handle_pos_eq_some hp
  obtain ⟨hset, hframe⟩ := cellAt_world_set
    { g with
      world := g.world.set x (col.set y ⟨some player_id⟩)
      pos := if g.me = some player_id then (x, y) else g.pos }
    g hcol hy rfl
  exact ⟨hset, hframe, rfl, rfl, rfl, rfl⟩

/-- Witness for C9: `pos|3|0|1` on `gPos`, overwriting player 5's claim at
(0,1) and moving the bot there. -/
theorem pos_event_spec_witness :
    handle_pos gPos 3 0 1 = some gPosAfter ∧
      cellAt gPosAfter 0 1 = some ⟨some 3⟩ :=
  ⟨by decide, (pos_event_spec gPos 3 0 1 gPosAfter (by decide)).1⟩

/-- C10 fails as stated: with the self identity already set to 1, a later
`player` event whose name equals the configured username re-assigns `me`
to the event's ID 2 within the same epoch, without any intervening reset. -/
theorem me_overwritten_within_epoch :
    gMid.me = some 1 ∧
      (gMid.add_player 2 "MASTER CONTROL PROGRAM").me = some 2 := by
  decide

/-- C10 (amended): within an epoch the self identity changes only through a
`player` event that carries the configured username, which re-assigns it
(even when already set) to that event's ID; a `player` event with any other
name leaves it unchanged, as do `pos` and `die` events.  Apart from such
username events, only `reset` installs a new identity. -/
theorem me_stable_except_username (g : Game) (id : Nat) (name : String)
    (player_id x y id2 : Nat) :
    (name ≠ g.username → (g.add_player id name).me = g.me) ∧
    (name = g.username → (g.add_player id name).me = some id) ∧
    (∀ g', handle_pos g player_id x y = some g' → g'.me = g.me) ∧
    (∀ g', handle_die g id2 = some g' → g'.me = g.me) := by
  refine ⟨?_, ?_, ?_, ?_⟩
  · intro hne
    unfold Game.add_player
    rw [if_neg hne]
    split <;> rfl
  · intro he
    unfold Game.add_player
    rw [if_pos he]
  · intro g' h
    obtain ⟨col, hcol, hy, rfl⟩ := handle_pos_eq_some h
    rfl
  · intro g' h
    obtain ⟨hlt, rfl⟩ := remove_player_eq_some h
    rfl

/-- Witness for C10 (amended): a `player` event with a foreign name leaves
`gMid`'s identity untouched. -/
theorem me_stable_except_username_witness :
    ("intruder" ≠ gMid.username) ∧
      (gMid.add_player 5 "intruder").me = gMid.me :=
  ⟨by decide, (me_stable_except_username gMid 5 "intruder" 0 0 0 0).1 (by decide)⟩

end Tronbot
